import Mathlib

/-!
Shallow embedding of the Genesis Eleven safety pipeline:
the risk classifier, denylist matcher and policy aggregator
(src/core/Validator.js, src/models/ValidationResult.js), the plan
parser (src/core/Planner.js) and the sandboxed executor
(src/core/SandboxExecutor.js).  JavaScript strings become Lean
Strings, JS objects become structures with Option fields where the
source may see undefined, and the JS truthiness operators are
modelled explicitly.
-/

namespace GenesisEleven

/-! ## Risk levels

The source keeps risk levels as strings and compares them through
Validator._getHigherRiskLevel, which maps a level to an ordinal with
the expression levels[level] || 1.  Since levels.none is the value 0,
which is falsy in JS, the string "none" is given ordinal 1 there, the
same as "low"; any unknown string also maps to 1. -/

/-- JS: the expression `o || d` for an optional string (undefined and
the empty string are falsy). -/
def jsOrStr (o : Option String) (d : String) : String :=
  match o with
  | some s => if s = "" then d else s
  | none => d

/-- The ordinal used inside Validator._getHigherRiskLevel:
`levels[level] || 1`. -/
def riskValue (s : String) : Nat :=
  if s = "low" then 1 else if s = "medium" then 2 else if s = "high" then 3 else 1

/-- `Object.keys(levels).find(key => levels[key] === maxValue) || 'low'`. -/
def riskName (v : Nat) : String :=
  if v = 0 then "none" else if v = 1 then "low" else if v = 2 then "medium" else "high"

/-- Validator._getHigherRiskLevel. -/
def getHigherRiskLevel (l1 l2 : String) : String :=
  riskName (max (riskValue l1) (riskValue l2))

/-- The ordinal of the specified total order none < low < medium < high
(strings outside the enumeration sit at the bottom). -/
def specValue (s : String) : Nat :=
  if s = "none" then 0 else if s = "low" then 1
  else if s = "medium" then 2 else if s = "high" then 3 else 0

/-- Join (binary maximum) in the specified order none < low < medium < high. -/
def specJoin (a b : String) : String :=
  if specValue a < specValue b then b else a

/-! ## A small regular-expression engine

Just enough to express, faithfully, the concrete regexes appearing in
Validator._analyzeRiskLevel, Validator._checkHighRiskOperations and the
default denylist patterns: literals, alternation, sequencing, the JS
classes \s+ / \s* , the dot-star, word boundaries and one-character
classes.  All those regexes carry the i flag, which we model by
lowercasing the subject first. -/

def isWordChar (c : Char) : Bool :=
  (c ≥ 'a' && c ≤ 'z') || (c ≥ 'A' && c ≤ 'Z') || (c ≥ '0' && c ≤ '9') || c = '_'

def isWs (c : Char) : Bool :=
  c = ' ' || c = '\t' || c = '\n' || c = '\r'

def lowerChar (c : Char) : Char :=
  if c ≥ 'A' && c ≤ 'Z' then Char.ofNat (c.toNat + 32) else c

inductive RE where
  | lit (s : List Char)
  | alt (a b : RE)
  | seq (a b : RE)
  | ws1
  | wsStar
  | anyStar
  | wb
  | cls (p : Char → Bool)

/-- Length of the run of whitespace characters at the head. -/
def wsCount : List Char → Nat
  | [] => 0
  | c :: t => if isWs c then wsCount t + 1 else 0

/-- Length of the run of non-newline characters at the head (the JS dot). -/
def dotCount : List Char → Nat
  | [] => 0
  | c :: t => if c = '\n' then 0 else dotCount t + 1

def isWordAt (cs : List Char) (i : Nat) : Bool :=
  match cs.drop i with
  | c :: _ => isWordChar c
  | [] => false

/-- A word boundary sits at position i when exactly one side is a word
character. -/
def boundaryAt (cs : List Char) (i : Nat) : Bool :=
  ((decide (0 < i)) && isWordAt cs (i - 1)) != isWordAt cs i

/-- All end positions of a match of the expression starting at i. -/
def matchEnds : RE → List Char → Nat → List Nat
  | .lit s, cs, i => if s.isPrefixOf (cs.drop i) then [i + s.length] else []
  | .alt a b, cs, i => matchEnds a cs i ++ matchEnds b cs i
  | .seq a b, cs, i => ((matchEnds a cs i).map (matchEnds b cs)).flatten
  | .ws1, cs, i => (List.range (wsCount (cs.drop i))).map (fun j => i + j + 1)
  | .wsStar, cs, i => (List.range (wsCount (cs.drop i) + 1)).map (fun j => i + j)
  | .anyStar, cs, i => (List.range (dotCount (cs.drop i) + 1)).map (fun j => i + j)
  | .wb, cs, i => if boundaryAt cs i then [i] else []
  | .cls p, cs, i =>
      match cs.drop i with
      | c :: _ => if p c then [i + 1] else []
      | [] => []

/-- RegExp.test with the i flag: some start position admits a match. -/
def reTest (re : RE) (s : String) : Bool :=
  let cs := s.data.map lowerChar
  (List.range (cs.length + 1)).any (fun i => !(matchEnds re cs i).isEmpty)

def reLit (s : String) : RE := .lit s.data

def reNever : RE := .cls (fun _ => false)

def reAnyOf (ss : List String) : RE :=
  ss.foldr (fun s acc => RE.alt (reLit s) acc) reNever

def reSeqs (l : List RE) : RE :=
  l.foldr RE.seq (reLit "")

/-! ## The classifier regexes (Validator._analyzeRiskLevel)

Written against the lowercased subject, which models the i flag. -/

def fileOpsRE : RE :=
  reSeqs [.wb, reAnyOf ["rm", "del", "delete", "mv", "move"], .wb]

def destructiveFileRE : RE :=
  reSeqs [.wb,
    RE.alt (reSeqs [reLit "rm", .ws1, reLit "-rf"])
      (reSeqs [reLit "del", .ws1, reLit "/",
        RE.cls (fun c => c = 'q' || c = 's' || c = 'f')]),
    .wb]

def copyRE : RE :=
  reSeqs [.wb, reAnyOf ["cp", "copy"], .wb]

def systemRE : RE :=
  reSeqs [.wb, reAnyOf ["sudo", "su", "chmod", "chown", "systemctl", "service"], .wb]

def networkRE : RE :=
  reSeqs [.wb, reAnyOf ["curl", "wget", "ssh", "scp", "rsync"], .wb]

def pipeShellRE : RE :=
  reSeqs [reLit "|", .wsStar, reAnyOf ["bash", "sh", "zsh", "fish"], .wb]

def packageRE : RE :=
  reSeqs [.wb, reAnyOf ["apt", "yum", "dnf", "pacman", "brew", "npm", "pip", "gem"],
    .ws1, reAnyOf ["install", "add"], .wb]

def killRE : RE :=
  reSeqs [.wb, reAnyOf ["kill", "killall", "pkill"], .wb]

def killNineRE : RE :=
  reSeqs [reLit "kill", .ws1, reLit "-9", .ws1, reLit "-1"]

def gitRE : RE :=
  reSeqs [.wb, reLit "git", .ws1, reAnyOf ["reset", "clean"], .wb]

def gitDestructiveRE : RE :=
  reSeqs [reLit "git", .ws1,
    RE.alt (reSeqs [reLit "reset", .ws1, reLit "--hard"])
      (reSeqs [reLit "clean", .ws1, reLit "-fd"])]

/-- Validator._analyzeRiskLevel.  The source initialises level to none
and lets each matching category overwrite it in order; warnings are
pushed in the same order. -/
def analyzeRiskLevel (command : String) : String × List String :=
  let l0 := "none"
  let l1 := if reTest fileOpsRE command then
      (if reTest destructiveFileRE command then "high" else "low") else l0
  let w1 := if reTest fileOpsRE command && reTest destructiveFileRE command then
      ["Destructive file operation detected"] else []
  let l2 := if reTest copyRE command then "low" else l1
  let l3 := if reTest systemRE command then "high" else l2
  let w3 := if reTest systemRE command then ["System-level operation detected"] else []
  let l4 := if reTest networkRE command then
      (if reTest pipeShellRE command then "high" else "medium") else l3
  let w4 := if reTest networkRE command && reTest pipeShellRE command then
      ["Network download with shell execution detected"] else []
  let l5 := if reTest packageRE command then "medium" else l4
  let w5 := if reTest packageRE command then ["Package installation detected"] else []
  let l6 := if reTest killRE command then
      (if reTest killNineRE command then "high" else "medium") else l5
  let w6 := if reTest killRE command && reTest killNineRE command then
      ["System-wide process termination detected"] else []
  let l7 := if reTest gitRE command then
      (if reTest gitDestructiveRE command then "high" else "medium") else l6
  let w7 := if reTest gitRE command && reTest gitDestructiveRE command then
      ["Destructive git operation detected"] else []
  (l7, w1 ++ w3 ++ w4 ++ w5 ++ w6 ++ w7)

/-- The classifier's category tests in source order, each paired with
the risk level it would assign when it matches (including the internal
escalations). -/
def categoryTests (command : String) : List (Bool × String) :=
  [ (reTest fileOpsRE command,
      if reTest destructiveFileRE command then "high" else "low"),
    (reTest copyRE command, "low"),
    (reTest systemRE command, "high"),
    (reTest networkRE command,
      if reTest pipeShellRE command then "high" else "medium"),
    (reTest packageRE command, "medium"),
    (reTest killRE command,
      if reTest killNineRE command then "high" else "medium"),
    (reTest gitRE command,
      if reTest gitDestructiveRE command then "high" else "medium") ]

/-- What the code computes: the candidate of the last matching category
test (overwrite semantics). -/
def lastMatchLevel (command : String) : String :=
  (categoryTests command).foldl (fun acc mc => if mc.1 then mc.2 else acc) "none"

/-- What the spec claims: the maximum, under none < low < medium < high,
of the candidates of all matching category tests. -/
def maxMatchLevel (command : String) : String :=
  (categoryTests command).foldl
    (fun acc mc => if mc.1 then specJoin acc mc.2 else acc) "none"

/-! ## Denylist matcher (Validator._checkDenylist) -/

/-- JS String.includes (case sensitive). -/
def jsIncludes (s sub : String) : Bool :=
  (List.range (s.data.length + 1)).any (fun i => sub.data.isPrefixOf (s.data.drop i))

/-- The denylist document: each field may be absent. -/
structure Denylist where
  commands : Option (List String)
  patterns : Option (List String)
  highRisk : Option (List String)

structure DenylistCheck where
  allowed : Bool
  reasons : List String
deriving DecidableEq

/-- One turn of the exact-substring loop of _checkDenylist. -/
def denyCommandStep (command : String) (r : DenylistCheck) (c : String) : DenylistCheck :=
  if jsIncludes command c then
    { allowed := false, reasons := r.reasons ++ ["That command is blocked: " ++ c] }
  else r

/-- One turn of the pattern loop of _checkDenylist: a pattern that the
host engine rejects (compile = none) is skipped with a logged warning
and evaluation continues. -/
def denyPatternStep (compile : String → Option (String → Bool)) (command : String)
    (r : DenylistCheck) (p : String) : DenylistCheck :=
  match compile p with
  | some test =>
    if test command then
      { allowed := false, reasons := r.reasons ++ ["Matches a dangerous pattern"] }
    else r
  | none => r

/-- Validator._checkDenylist.  `this.denylist` may be null; regex
compilation (new RegExp(pattern, 'i')) is the host engine, modelled by
the oracle `compile`, which yields none exactly when the host throws on
that pattern. -/
def checkDenylist (dl : Option Denylist) (compile : String → Option (String → Bool))
    (command : String) : DenylistCheck :=
  match dl with
  | none => { allowed := true, reasons := [] }
  | some d =>
    let afterCommands : DenylistCheck :=
      match d.commands with
      | none => { allowed := true, reasons := [] }
      | some cmds =>
        cmds.foldl (denyCommandStep command) { allowed := true, reasons := [] }
    match d.patterns with
    | none => afterCommands
    | some pats => pats.foldl (denyPatternStep compile command) afterCommands

/-! ## High-risk pass (Validator._checkHighRiskOperations) -/

def formatRE : RE := reSeqs [.wb, reLit "format", .ws1, RE.cls (fun c => c ≥ 'a' && c ≤ 'z'), reLit ":"]
def fdiskRE : RE := reSeqs [.wb, reLit "fdisk", .wb]
def mkfsRE : RE := reSeqs [.wb, reLit "mkfs", .wb]
def ddRE : RE := reSeqs [.wb, reLit "dd", .ws1, reLit "if=", .anyStar, reLit "of=/dev/"]
def chmod777RE : RE := reSeqs [.wb, reLit "chmod", .ws1, reLit "777", .wb]
def rmRfRootRE : RE := reSeqs [.wb, reLit "rm", .ws1, reLit "-rf", .ws1, reLit "/", .wb]
def shredRE : RE := reSeqs [.wb, reLit "shred", .wb]
def wipeRE : RE := reSeqs [.wb, reLit "wipe", .wb]
def forkBombRE : RE := reSeqs [reLit ":()\x7b", .wsStar, reLit ":|:&", .wsStar, reLit "\x7d;:"]
def whileTrueRE : RE := reSeqs [reLit "while", .ws1, reLit "true", .anyStar, reLit "do"]

def highRiskPatternList : List (RE × String) :=
  [ (formatRE, "Disk formatting operation"),
    (fdiskRE, "Disk partitioning operation"),
    (mkfsRE, "Filesystem creation operation"),
    (ddRE, "Direct disk write operation"),
    (chmod777RE, "Overly permissive file permissions"),
    (rmRfRootRE, "Root filesystem deletion attempt"),
    (shredRE, "Secure file deletion operation"),
    (wipeRE, "Disk wiping operation"),
    (forkBombRE, "Fork bomb detected"),
    (whileTrueRE, "Infinite loop detected") ]

structure HighRiskCheck where
  isHighRisk : Bool
  warnings : List String
deriving DecidableEq

/-- Validator._checkHighRiskOperations. -/
def checkHighRiskOperations (dl : Option Denylist) (command : String) : HighRiskCheck :=
  let fromPatterns :=
    highRiskPatternList.foldl (fun acc pw =>
      if reTest pw.1 command then
        { isHighRisk := true, warnings := acc.warnings ++ [pw.2] }
      else acc)
      { isHighRisk := false, warnings := [] }
  match dl with
  | none => fromPatterns
  | some d =>
    match d.highRisk with
    | none => fromPatterns
    | some hrs =>
      hrs.foldl (fun acc c =>
        if jsIncludes command c then
          { isHighRisk := true, warnings := acc.warnings ++ ["High-risk operation: " ++ c] }
        else acc)
        fromPatterns

/-- Validator._generateSuggestions. -/
def generateSuggestions (command riskLevel : String) : List String :=
  (if riskLevel = "high" then
    (if jsIncludes command "rm -rf" then
      ["Consider using a safer deletion method or backup first"] else []) ++
    (if jsIncludes command "sudo" then
      ["Verify this system operation is necessary"] else [])
  else []) ++
  (if jsIncludes command "curl" && jsIncludes command "|" then
    ["Download and inspect scripts before executing"] else []) ++
  (if jsIncludes command "chmod 777" then
    ["Use more restrictive permissions like 755 or 644"] else [])

/-! ## The default denylist (Validator._getDefaultDenylist) and the host
compilation of its seven regex patterns -/

def defaultDenylist : Denylist :=
  { commands := some
      ["rm -rf /", "rm -rf /*", "rm -rf ~", "rm -rf $HOME", "dd if=/dev/zero",
       "mkfs", "fdisk", "parted", "sudo rm", "chmod 777", "curl | bash",
       "wget | sh", "format", "del /q /s"],
    patterns := some
      ["rm\\s+-rf\\s+/", "chmod\\s+777\\s+", "\\|\\s*bash", "\\|\\s*sh",
       ">/dev/sd[a-z]", "format\\s+[A-Z]:", "del\\s+/[qsf]"],
    highRisk := some
      ["git reset --hard", "git clean -fd", "docker system prune", "npm ci",
       "mvn clean", "gradle clean", "truncate", "shred"] }

/-- The seven default patterns, as the host regex engine (with the i
flag) reads them. -/
def defaultPatternRegexes : List (String × RE) :=
  [ ("rm\\s+-rf\\s+/", reSeqs [reLit "rm", .ws1, reLit "-rf", .ws1, reLit "/"]),
    ("chmod\\s+777\\s+", reSeqs [reLit "chmod", .ws1, reLit "777", .ws1]),
    ("\\|\\s*bash", reSeqs [reLit "|", .wsStar, reLit "bash"]),
    ("\\|\\s*sh", reSeqs [reLit "|", .wsStar, reLit "sh"]),
    (">/dev/sd[a-z]", reSeqs [reLit ">/dev/sd", RE.cls (fun c => c ≥ 'a' && c ≤ 'z')]),
    ("format\\s+[A-Z]:", reSeqs [reLit "format", .ws1, RE.cls (fun c => c ≥ 'a' && c ≤ 'z'), reLit ":"]),
    ("del\\s+/[qsf]", reSeqs [reLit "del", .ws1, reLit "/", RE.cls (fun c => c = 'q' || c = 's' || c = 'f')]) ]

/-- Host regex compilation restricted to the default rule set: every
default pattern compiles to its matcher; anything else is outside this
oracle's domain of use. -/
def defaultCompile (p : String) : Option (String → Bool) :=
  (defaultPatternRegexes.find? (fun pr => pr.1 = p)).map (fun pr s => reTest pr.2 s)

/-! ## Steps and validation results -/

/-- A step as the validator and executor see it.  riskLevel and
workingDirectory may be absent on raw step objects. -/
structure Step where
  id : String
  description : String
  command : String
  requiresConfirmation : Bool
  riskLevel : Option String
  workingDirectory : Option String
deriving DecidableEq

/-- models/ValidationResult.js (the fields the pipeline reads). -/
structure ValidationResult where
  stepId : String
  command : String
  allowed : Bool
  riskLevel : String
  warnings : List String
  blockedReasons : List String
  requiresConfirmation : Bool
  suggestions : List String
deriving DecidableEq

/-- ValidationResult.addBlockedReason: push the reason and force
allowed = false, but only when the reason is truthy and new. -/
def addBlockedReason (r : ValidationResult) (reason : String) : ValidationResult :=
  if reason ≠ "" && !(r.blockedReasons.contains reason) then
    { r with blockedReasons := r.blockedReasons ++ [reason], allowed := false }
  else r

/-- Validator.validateStep.  The ValidationResult is constructed with
allowed = true and riskLevel = step.riskLevel || 'low'
(requiresConfirmation is not passed, so the constructor defaults it to
false); then the denylist outcome, the risk analysis, the high-risk
pass and the suggestions are merged in order. -/
def validateStep (dl : Option Denylist) (compile : String → Option (String → Bool))
    (step : Step) : ValidationResult :=
  let initRisk := jsOrStr step.riskLevel "low"
  let check := checkDenylist dl compile step.command
  let allowed1 := if !check.allowed then false else true
  let reasons1 := if !check.allowed then check.reasons else []
  let analysis := analyzeRiskLevel step.command
  let risk1 := getHigherRiskLevel initRisk analysis.1
  let hr := checkHighRiskOperations dl step.command
  let risk2 := if hr.isHighRisk then getHigherRiskLevel risk1 "high" else risk1
  let warnings2 := analysis.2 ++ (if hr.isHighRisk then hr.warnings else [])
  let confirm2 := if hr.isHighRisk then true else false
  { stepId := step.id,
    command := step.command,
    allowed := allowed1,
    riskLevel := risk2,
    warnings := warnings2,
    blockedReasons := reasons1,
    requiresConfirmation := confirm2,
    suggestions := generateSuggestions step.command risk2 }

structure ValidationSummary where
  totalSteps : Nat
  blockedSteps : Nat
  totalWarnings : Nat
  highRiskSteps : Nat
  confirmationRequired : Nat
  overallSafe : Bool
deriving DecidableEq

/-- Validator._generateValidationSummary. -/
def generateValidationSummary (results : List ValidationResult) : ValidationSummary :=
  let blocked := (results.filter (fun r => !r.allowed)).length
  let highRisk := (results.filter (fun r => r.riskLevel = "high")).length
  { totalSteps := results.length,
    blockedSteps := blocked,
    totalWarnings := results.foldl (fun s r => s + r.warnings.length) 0,
    highRiskSteps := highRisk,
    confirmationRequired := (results.filter (fun r => r.requiresConfirmation)).length,
    overallSafe := blocked = 0 && highRisk = 0 }

structure PlanValidation where
  allowed : Bool
  riskLevel : String
  stepResults : List ValidationResult
  summary : ValidationSummary
deriving DecidableEq

/-- Validator.validatePlan: validate every step in order, AND the
allowed flags, and fold the risk levels through _getHigherRiskLevel
starting from the string none. -/
def validatePlan (dl : Option Denylist) (compile : String → Option (String → Bool))
    (steps : List Step) : PlanValidation :=
  let loop := steps.foldl
    (fun (acc : List ValidationResult × Bool × String) step =>
      let r := validateStep dl compile step
      (acc.1 ++ [r],
       (if !r.allowed then false else acc.2.1),
       getHigherRiskLevel acc.2.2 r.riskLevel))
    ([], true, "none")
  { allowed := loop.2.1,
    riskLevel := loop.2.2,
    stepResults := loop.1,
    summary := generateValidationSummary loop.1 }

/-! ## Sandboxed executor (src/core/SandboxExecutor.js)

_runCommand races a manual timer against the process: the close event
resolves the promise and clears the timer; the timer event, when the
timer is still armed, sends SIGTERM and rejects.  The Node event loop
serialises the handlers, so a run is a sequence of events processed
one at a time against a state whose promise settles at most once. -/

/-- JS: `o || d` on a number that may be null (0 and null are falsy). -/
def jsOrInt (o : Option Int) (d : Int) : Int :=
  match o with
  | some n => if n = 0 then d else n
  | none => d

/-- JS String.prototype.trim. -/
def jsTrim (s : String) : String :=
  String.mk (((s.data.dropWhile isWs).reverse.dropWhile isWs).reverse)

/-- JS String.prototype.startsWith: code-unit prefix. -/
def jsStartsWith (s pre : String) : Bool :=
  pre.data.isPrefixOf s.data

/-- Split on whitespace runs (the JS split(/\s+/) applied to a trimmed
string, empty fragments discarded). -/
def splitOnWs : List Char → List Char → List (List Char)
  | [], cur => [cur.reverse]
  | c :: t, cur => if isWs c then cur.reverse :: splitOnWs t [] else splitOnWs t (c :: cur)

inductive SpawnEvent where
  | outData (s : String)            -- child.stdout data
  | errData (s : String)            -- child.stderr data
  | closed (code : Option Int)      -- close event; null when signal-terminated
  | failed (msg : String)           -- error event (spawn failure)
  | timer                           -- the setTimeout callback fires
deriving DecidableEq

structure RunOut where
  exitCode : Int
  stdout : String
  stderr : String
deriving DecidableEq

instance : DecidableEq (Except String RunOut) := fun a b =>
  match a, b with
  | .ok x, .ok y =>
      if h : x = y then .isTrue (by rw [h]) else .isFalse (fun hh => h (by cases hh; rfl))
  | .ok _, .error _ => .isFalse (fun hh => by cases hh)
  | .error _, .ok _ => .isFalse (fun hh => by cases hh)
  | .error x, .error y =>
      if h : x = y then .isTrue (by rw [h]) else .isFalse (fun hh => h (by cases hh; rfl))

structure RunState where
  settled : Option (Except String RunOut)
  timerArmed : Bool
  killed : Bool
  stdoutBuf : String
  stderrBuf : String
deriving DecidableEq

def initialRunState : RunState :=
  { settled := none, timerArmed := true, killed := false, stdoutBuf := "", stderrBuf := "" }

/-- A promise settles exactly once; later resolve/reject calls are no-ops. -/
def settleOnce (s : RunState) (o : Except String RunOut) : RunState :=
  if s.settled.isSome then s else { s with settled := some o }

/-- One event-loop turn of the handlers installed by _runCommand. -/
def runEvent (timeoutMs : Nat) (s : RunState) (e : SpawnEvent) : RunState :=
  match e with
  | .outData d => { s with stdoutBuf := s.stdoutBuf ++ d }
  | .errData d => { s with stderrBuf := s.stderrBuf ++ d }
  | .closed code =>
      -- first close handler: resolve with exitCode || 0 and trimmed output;
      -- second close handler: clearTimeout.
      let s1 := settleOnce s (.ok
        { exitCode := jsOrInt code 0,
          stdout := jsTrim s.stdoutBuf,
          stderr := jsTrim s.stderrBuf })
      { s1 with timerArmed := false }
  | .failed msg =>
      settleOnce s (.error ("Command execution failed: " ++ msg))
  | .timer =>
      if s.timerArmed then
        let s1 := { s with timerArmed := false }
        if !s1.killed then
          settleOnce { s1 with killed := true }
            (.error ("Command timed out after " ++ toString timeoutMs ++ "ms"))
        else s1
      else s                        -- a cleared timer never fires

def runTrace (timeoutMs : Nat) (events : List SpawnEvent) : RunState :=
  events.foldl (runEvent timeoutMs) initialRunState

/-- SandboxExecutor._parseCommand on a string command. -/
def parseCommand (command : String) : Option (String × List String) :=
  let t := jsTrim command
  if t = "" then none
  else
    match (splitOnWs t.data []).filter (fun w => w ≠ []) with
    | [] => none
    | c :: args => some (String.mk c, args.map String.mk)

/-- The explicitly constructed child environment
(SandboxExecutor._getSandboxEnvironment). -/
structure SandboxEnv where
  path : Option String
  home : String
  tmpdir : String
  user : String
  shell : String
  lang : String
  nodeEnv : String
  userProfile : Option String
  temp : Option String
  tmp : Option String

def pathJoin (a b : String) : String := a ++ "/" ++ b

def getSandboxEnvironment (callerEnv : String → Option String)
    (workDir : String) (isWin32 : Bool) : SandboxEnv :=
  { path := callerEnv "PATH",
    home := workDir,
    tmpdir := pathJoin workDir "tmp",
    user := "genesis-eleven-user",
    shell := jsOrStr (callerEnv "SHELL") "/bin/bash",
    lang := jsOrStr (callerEnv "LANG") "en_US.UTF-8",
    nodeEnv := "sandbox",
    userProfile := if isWin32 then some workDir else none,
    temp := if isWin32 then some (pathJoin workDir "tmp") else none,
    tmp := if isWin32 then some (pathJoin workDir "tmp") else none }

/-- The executor's ambient host: configuration, filesystem oracles,
path resolution, the caller environment and the event trace the
spawned child would produce. -/
structure ExecEnv where
  workDir : String
  cwd : String
  homeDir : String
  tmpDir : String
  timeout : Nat
  callerEnv : String → Option String
  resolve : String → String
  mkdirErr : String → Option String   -- some msg when fs.mkdir throws
  accessErr : String → Option String  -- some msg when fs.access throws
  events : List SpawnEvent
  isWin32 : Bool

/-- SandboxExecutor._validateWorkingDirectory: mkdir -p, then the
containment check (String.startsWith against each allowed root), then
the permission check; any failure is wrapped into one message. -/
def validateWorkingDirectory (env : ExecEnv) (dir : String) : Except String Unit :=
  match env.mkdirErr dir with
  | some m => .error ("Invalid working directory: " ++ m)
  | none =>
    let resolved := env.resolve dir
    let allowedPaths := [env.resolve env.workDir, env.resolve env.cwd,
                         env.resolve env.homeDir, env.resolve env.tmpDir]
    if !(allowedPaths.any (fun a => jsStartsWith resolved a)) then
      .error ("Invalid working directory: Working directory not allowed: " ++ dir)
    else
      match env.accessErr resolved with
      | some m => .error ("Invalid working directory: " ++ m)
      | none => .ok ()

/-- models/ExecutionResult.js (the fields the pipeline reads). -/
structure ExecutionResult where
  stepId : String
  command : String
  exitCode : Int
  stdout : String
  stderr : String
  workingDirectory : String
  success : Bool
  error : Option String
deriving DecidableEq

def failureResult (step : Step) (workingDir msg : String) : ExecutionResult :=
  { stepId := step.id, command := step.command, exitCode := -1, stdout := "",
    stderr := msg, workingDirectory := workingDir, success := false, error := some msg }

/-- SandboxExecutor.executeStep.  The first component is the returned
ExecutionResult (none when the child never settles, so the await never
returns); the second is the environment handed to spawn, or none when
spawn is never invoked. -/
def executeStep (env : ExecEnv) (step : Step) :
    Option ExecutionResult × Option SandboxEnv :=
  let workingDir := jsOrStr step.workingDirectory env.workDir
  match validateWorkingDirectory env workingDir with
  | .error m => (some (failureResult step workingDir m), none)
  | .ok _ =>
    match parseCommand step.command with
    | none => (some (failureResult step workingDir "Invalid command format"), none)
    | some _ =>
      let senv := getSandboxEnvironment env.callerEnv env.workDir env.isWin32
      match (runTrace env.timeout env.events).settled with
      | none => (none, some senv)
      | some (.ok r) =>
        (some { stepId := step.id, command := step.command, exitCode := r.exitCode,
                stdout := r.stdout, stderr := r.stderr, workingDirectory := workingDir,
                success := r.exitCode = 0, error := none }, some senv)
      | some (.error m) =>
        (some (failureResult step workingDir m), some senv)

/-- Path descendance in the claimed sense: equal to the root or below
it, at a path-component boundary. -/
def isDescendant (p root : String) : Bool :=
  p = root || jsStartsWith p (root ++ "/")

/-! ## Plan parsing and validation (Planner._parseAndValidatePlan)

The JSON text has already been parsed by the host; the embedding
starts from the parsed document, whose fields may all be absent. -/

structure RawStep where
  id : Option String
  description : Option String
  command : Option String
  requiresConfirmation : Option Bool
  riskLevel : Option String
  workingDirectory : Option String
deriving DecidableEq

structure RawPlan where
  intent : Option String
  steps : Option (List RawStep)
  riskLevel : Option String
  rollback : Option String
  estimatedDuration : Option String
  prerequisites : Option (List String)
deriving DecidableEq

/-- JS truthiness of an optional string (undefined, null and the empty
string are falsy). -/
def jsTruthyOpt (o : Option String) : Bool :=
  match o with
  | some s => s ≠ ""
  | none => false

structure PlanData where
  intent : String
  steps : List Step
  riskLevel : String
  rollback : String
  estimatedDuration : String
  prerequisites : List String
deriving DecidableEq

/-- The forEach over planData.steps: the first step missing id, command
or description throws; otherwise defaults are filled in
(requiresConfirmation ?? false, riskLevel ?? 'low',
workingDirectory ?? process.cwd()). -/
def checkSteps (cwd : String) : List RawStep → Nat → Except String (List Step)
  | [], _ => .ok []
  | s :: rest, i =>
    if !(jsTruthyOpt s.id) || !(jsTruthyOpt s.command) || !(jsTruthyOpt s.description) then
      .error ("Invalid step " ++ toString i ++ ": missing required fields (id, command, description)")
    else
      match checkSteps cwd rest (i + 1) with
      | .error m => .error m
      | .ok vs => .ok
          ({ id := s.id.getD "",
             description := s.description.getD "",
             command := s.command.getD "",
             requiresConfirmation := s.requiresConfirmation.getD false,
             riskLevel := some (s.riskLevel.getD "low"),
             workingDirectory := some (s.workingDirectory.getD cwd) } :: vs)

/-- Planner._parseAndValidatePlan after JSON.parse: every rejection is
a thrown error, re-wrapped by the catch with the prefix
"Failed to parse plan response: ". -/
def parseAndValidatePlan (cwd : String) (p : RawPlan) : Except String PlanData :=
  if !(jsTruthyOpt p.intent) then
    .error "Failed to parse plan response: Invalid plan structure: missing required fields (intent, steps)"
  else
    match p.steps with
    | none =>
      .error "Failed to parse plan response: Invalid plan structure: missing required fields (intent, steps)"
    | some steps =>
      if steps.length = 0 then
        .error "Failed to parse plan response: Invalid plan: must contain at least one step"
      else
        match checkSteps cwd steps 1 with
        | .error m => .error ("Failed to parse plan response: " ++ m)
        | .ok vsteps => .ok
            { intent := p.intent.getD "",
              steps := vsteps,
              riskLevel := p.riskLevel.getD "low",
              rollback := p.rollback.getD "No automatic rollback available",
              estimatedDuration := p.estimatedDuration.getD "Unknown",
              prerequisites := p.prerequisites.getD [] }

/-! ## Derived combinations of the classifier used by the claims -/

/-- The level produced by _analyzeRiskLevel combined with the
escalation of the high-risk pass, exactly as validateStep applies it
to the classifier output. -/
def classifierRisk (dl : Option Denylist) (command : String) : String :=
  let a := (analyzeRiskLevel command).1
  if (checkHighRiskOperations dl command).isHighRisk then getHigherRiskLevel a "high" else a

/-- What the claim asserts the classifier computes: the maximum over
all matching category tests, still escalated by the high-risk pass. -/
def claimMaxRisk (dl : Option Denylist) (command : String) : String :=
  let m := maxMatchLevel command
  if (checkHighRiskOperations dl command).isHighRisk then specJoin m "high" else m

/-! ## Lemmas about the risk-level arithmetic -/

lemma riskValue_mem (s : String) : riskValue s = 1 ∨ riskValue s = 2 ∨ riskValue s = 3 := by
  unfold riskValue
  split
  · exact Or.inl rfl
  split
  · exact Or.inr (Or.inl rfl)
  split
  · exact Or.inr (Or.inr rfl)
  · exact Or.inl rfl

lemma getHigher_mem (a b : String) :
    getHigherRiskLevel a b = "low" ∨ getHigherRiskLevel a b = "medium" ∨
      getHigherRiskLevel a b = "high" := by
  unfold getHigherRiskLevel
  rcases riskValue_mem a with h1 | h1 | h1 <;> rcases riskValue_mem b with h2 | h2 | h2 <;>
    rw [h1, h2] <;> decide

lemma specValue_le_riskValue (s : String) : specValue s ≤ riskValue s := by
  by_cases h0 : s = "none" <;> by_cases h1 : s = "low" <;> by_cases h2 : s = "medium" <;>
    by_cases h3 : s = "high" <;> simp_all [specValue, riskValue]

lemma specValue_getHigher (a b : String) :
    specValue (getHigherRiskLevel a b) = max (riskValue a) (riskValue b) := by
  unfold getHigherRiskLevel
  rcases riskValue_mem a with h1 | h1 | h1 <;> rcases riskValue_mem b with h2 | h2 | h2 <;>
    rw [h1, h2] <;> decide

/-- Aggregation through _getHigherRiskLevel never lowers the level in
the specified order. -/
lemma specValue_le_getHigher_left (a b : String) :
    specValue a ≤ specValue (getHigherRiskLevel a b) := by
  rw [specValue_getHigher]
  exact le_trans (specValue_le_riskValue a) (le_max_left _ _)

/-- On the enumeration (with "none" never the second argument),
_getHigherRiskLevel agrees with the join of the specified order. -/
lemma getHigher_eq_specJoin (a b : String)
    (ha : a = "none" ∨ a = "low" ∨ a = "medium" ∨ a = "high")
    (hb : b = "low" ∨ b = "medium" ∨ b = "high") :
    getHigherRiskLevel a b = specJoin a b := by
  rcases ha with rfl | rfl | rfl | rfl <;> rcases hb with rfl | rfl | rfl <;> decide

lemma specJoin_mem (a b : String)
    (ha : a = "none" ∨ a = "low" ∨ a = "medium" ∨ a = "high")
    (hb : b = "low" ∨ b = "medium" ∨ b = "high") :
    specJoin a b = "none" ∨ specJoin a b = "low" ∨ specJoin a b = "medium" ∨
      specJoin a b = "high" := by
  unfold specJoin
  split
  · exact Or.inr hb
  · exact ha

/-! ## Unfoldings of validateStep -/

lemma validateStep_riskLevel_def (dl : Option Denylist)
    (compile : String → Option (String → Bool)) (step : Step) :
    (validateStep dl compile step).riskLevel =
      (if (checkHighRiskOperations dl step.command).isHighRisk then
        getHigherRiskLevel
          (getHigherRiskLevel (jsOrStr step.riskLevel "low") (analyzeRiskLevel step.command).1)
          "high"
      else
        getHigherRiskLevel (jsOrStr step.riskLevel "low") (analyzeRiskLevel step.command).1) := rfl

lemma validateStep_riskLevel_mem (dl : Option Denylist)
    (compile : String → Option (String → Bool)) (step : Step) :
    (validateStep dl compile step).riskLevel = "low" ∨
      (validateStep dl compile step).riskLevel = "medium" ∨
      (validateStep dl compile step).riskLevel = "high" := by
  rw [validateStep_riskLevel_def]
  split
  · exact getHigher_mem _ _
  · exact getHigher_mem _ _

lemma validateStep_allowed_def (dl : Option Denylist)
    (compile : String → Option (String → Bool)) (step : Step) :
    (validateStep dl compile step).allowed =
      (checkDenylist dl compile step.command).allowed := by
  show (if !(checkDenylist dl compile step.command).allowed then false else true) = _
  cases (checkDenylist dl compile step.command).allowed <;> rfl

lemma validateStep_blockedReasons_def (dl : Option Denylist)
    (compile : String → Option (String → Bool)) (step : Step) :
    (validateStep dl compile step).blockedReasons =
      (if !(checkDenylist dl compile step.command).allowed then
        (checkDenylist dl compile step.command).reasons else []) := rfl

/-! ## Lemmas about the validatePlan loop -/

/-- The loop body of validatePlan. -/
def planStep (dl : Option Denylist) (compile : String → Option (String → Bool))
    (acc : List ValidationResult × Bool × String) (step : Step) :
    List ValidationResult × Bool × String :=
  let r := validateStep dl compile step
  (acc.1 ++ [r],
   (if !r.allowed then false else acc.2.1),
   getHigherRiskLevel acc.2.2 r.riskLevel)

lemma all_map_comp {α β : Type} (l : List α) (f : α → β) (p : β → Bool) :
    (l.map f).all p = l.all (fun a => p (f a)) := by
  induction l with
  | nil => rfl
  | cons a t ih => simp [ih]

lemma validatePlan_eq_loop (dl : Option Denylist)
    (compile : String → Option (String → Bool)) (steps : List Step) :
    validatePlan dl compile steps =
      { allowed := (steps.foldl (planStep dl compile) ([], true, "none")).2.1,
        riskLevel := (steps.foldl (planStep dl compile) ([], true, "none")).2.2,
        stepResults := (steps.foldl (planStep dl compile) ([], true, "none")).1,
        summary := generateValidationSummary
          (steps.foldl (planStep dl compile) ([], true, "none")).1 } := rfl

lemma planLoop_results (dl : Option Denylist) (compile : String → Option (String → Bool))
    (steps : List Step) (acc : List ValidationResult × Bool × String) :
    (steps.foldl (planStep dl compile) acc).1 =
      acc.1 ++ steps.map (validateStep dl compile) := by
  induction steps generalizing acc with
  | nil => simp
  | cons s rest ih =>
    simp only [List.foldl_cons, List.map_cons, ih]
    simp [planStep]

lemma planLoop_allowed (dl : Option Denylist) (compile : String → Option (String → Bool))
    (steps : List Step) (acc : List ValidationResult × Bool × String) :
    (steps.foldl (planStep dl compile) acc).2.1 =
      (acc.2.1 && steps.all (fun s => (validateStep dl compile s).allowed)) := by
  induction steps generalizing acc with
  | nil => simp
  | cons s rest ih =>
    simp only [List.foldl_cons, List.all_cons, ih]
    cases h : (validateStep dl compile s).allowed <;>
      simp [planStep, h, Bool.and_assoc, Bool.and_comm]

lemma planLoop_risk (dl : Option Denylist) (compile : String → Option (String → Bool))
    (steps : List Step) (acc : List ValidationResult × Bool × String)
    (hacc : acc.2.2 = "none" ∨ acc.2.2 = "low" ∨ acc.2.2 = "medium" ∨ acc.2.2 = "high") :
    (steps.foldl (planStep dl compile) acc).2.2 =
      (steps.map (fun s => (validateStep dl compile s).riskLevel)).foldl specJoin acc.2.2 := by
  induction steps generalizing acc with
  | nil => simp
  | cons s rest ih =>
    simp only [List.foldl_cons, List.map_cons]
    have hmem := validateStep_riskLevel_mem dl compile s
    have hstep : (planStep dl compile acc s).2.2 =
        specJoin acc.2.2 (validateStep dl compile s).riskLevel :=
      getHigher_eq_specJoin _ _ hacc hmem
    have hnext : (planStep dl compile acc s).2.2 = "none" ∨
        (planStep dl compile acc s).2.2 = "low" ∨
        (planStep dl compile acc s).2.2 = "medium" ∨
        (planStep dl compile acc s).2.2 = "high" := by
      rw [hstep]
      exact specJoin_mem _ _ hacc hmem
    rw [ih _ hnext, hstep]

/-! ## Lemmas about the _runCommand event loop -/

lemma runEvent_settled_stable (t : Nat) (s : RunState) (e : SpawnEvent)
    (h : s.settled.isSome) : (runEvent t s e).settled = s.settled := by
  rcases e with d | d | code | msg | _
  · rfl
  · rfl
  · show (settleOnce s _).settled = s.settled
    unfold settleOnce
    rw [if_pos h]
  · show (settleOnce s _).settled = s.settled
    unfold settleOnce
    rw [if_pos h]
  · show (if s.timerArmed then _ else s).settled = s.settled
    split
    · show (if _ = true then settleOnce _ _ else _).settled = s.settled
      split
      · unfold settleOnce
        rw [if_pos]
        exact h
      · rfl
    · rfl

lemma foldl_settled_stable (t : Nat) (evs : List SpawnEvent) (s : RunState)
    (h : s.settled.isSome) :
    (evs.foldl (runEvent t) s).settled = s.settled := by
  induction evs generalizing s with
  | nil => rfl
  | cons e rest ih =>
    simp only [List.foldl_cons]
    rw [ih _ (by rw [runEvent_settled_stable t s e h]; exact h),
      runEvent_settled_stable t s e h]

lemma runEvent_killed_stable (t : Nat) (s : RunState) (e : SpawnEvent)
    (h : s.killed = true) : (runEvent t s e).killed = true := by
  rcases e with d | d | code | msg | _
  · exact h
  · exact h
  · show (settleOnce s _).killed = true
    unfold settleOnce
    split <;> exact h
  · show (settleOnce s _).killed = true
    unfold settleOnce
    split <;> exact h
  · show (if s.timerArmed then _ else s).killed = true
    split
    · show (if _ = true then settleOnce _ _ else _).killed = true
      rw [if_neg (by simp [h])]
      exact h
    · exact h

lemma foldl_killed_stable (t : Nat) (evs : List SpawnEvent) (s : RunState)
    (h : s.killed = true) :
    (evs.foldl (runEvent t) s).killed = true := by
  induction evs generalizing s with
  | nil => exact h
  | cons e rest ih =>
    simp only [List.foldl_cons]
    exact ih _ (runEvent_killed_stable t s e h)

lemma runEvent_disarmed_stable (t : Nat) (s : RunState) (e : SpawnEvent)
    (h : s.timerArmed = false) : (runEvent t s e).timerArmed = false := by
  rcases e with d | d | code | msg | _
  · exact h
  · exact h
  · rfl
  · show (settleOnce s _).timerArmed = false
    unfold settleOnce
    split <;> exact h
  · show (if s.timerArmed then _ else s).timerArmed = false
    rw [if_neg (by simp [h])]
    exact h

lemma foldl_disarmed_stable (t : Nat) (evs : List SpawnEvent) (s : RunState)
    (h : s.timerArmed = false) :
    (evs.foldl (runEvent t) s).timerArmed = false := by
  induction evs generalizing s with
  | nil => exact h
  | cons e rest ih =>
    simp only [List.foldl_cons]
    exact ih _ (runEvent_disarmed_stable t s e h)

/-- When the close event wins the race, the promise resolves with the
(coerced) exit code and the timer is cancelled, whatever happens later. -/
lemma runTrace_close_first (t : Nat) (c : Option Int) (tr : List SpawnEvent) :
    (runTrace t (SpawnEvent.closed c :: tr)).settled =
      some (.ok { exitCode := jsOrInt c 0, stdout := "", stderr := "" })
    ∧ (runTrace t (SpawnEvent.closed c :: tr)).timerArmed = false := by
  have hfirst : runEvent t initialRunState (SpawnEvent.closed c) =
      { settled := some (.ok { exitCode := jsOrInt c 0, stdout := "", stderr := "" }),
        timerArmed := false, killed := false, stdoutBuf := "", stderrBuf := "" } := rfl
  show ((tr.foldl (runEvent t) (runEvent t initialRunState (SpawnEvent.closed c))).settled = _)
    ∧ ((tr.foldl (runEvent t) (runEvent t initialRunState (SpawnEvent.closed c))).timerArmed = false)
  rw [hfirst]
  exact ⟨foldl_settled_stable t tr _ rfl, foldl_disarmed_stable t tr _ rfl⟩

/-- When the timer wins the race, the child is killed and the promise
rejects with the timeout error, whatever happens later. -/
lemma runTrace_timer_first (t : Nat) (tr : List SpawnEvent) :
    (runTrace t (SpawnEvent.timer :: tr)).settled =
      some (.error ("Command timed out after " ++ toString t ++ "ms"))
    ∧ (runTrace t (SpawnEvent.timer :: tr)).killed = true := by
  have hfirst : runEvent t initialRunState SpawnEvent.timer =
      { settled := some (.error ("Command timed out after " ++ toString t ++ "ms")),
        timerArmed := false, killed := true, stdoutBuf := "", stderrBuf := "" } := rfl
  show ((tr.foldl (runEvent t) (runEvent t initialRunState SpawnEvent.timer)).settled = _)
    ∧ ((tr.foldl (runEvent t) (runEvent t initialRunState SpawnEvent.timer)).killed = true)
  rw [hfirst]
  exact ⟨foldl_settled_stable t tr _ rfl, foldl_killed_stable t tr _ rfl⟩

/-! ## Lemmas about the denylist pattern loop and the step checker -/

lemma foldl_denyPattern_filter (compile : String → Option (String → Bool))
    (command : String) (pats : List String) (acc : DenylistCheck) :
    pats.foldl (denyPatternStep compile command) acc =
      (pats.filter (fun p => (compile p).isSome)).foldl
        (denyPatternStep compile command) acc := by
  induction pats generalizing acc with
  | nil => rfl
  | cons p rest ih =>
    cases hc : compile p with
    | none =>
      have hstep : denyPatternStep compile command acc p = acc := by
        unfold denyPatternStep
        rw [hc]
      simp only [List.foldl_cons, List.filter_cons, hc, Option.isSome_none, hstep]
      exact ih acc
    | some test =>
      simp only [List.foldl_cons, List.filter_cons, hc, Option.isSome_some]
      exact ih _

lemma checkSteps_error_of_invalid (cwd : String) (steps : List RawStep) (i : Nat)
    (s : RawStep) (hmem : s ∈ steps)
    (hbad : jsTruthyOpt s.id = false ∨ jsTruthyOpt s.command = false ∨
      jsTruthyOpt s.description = false) :
    ∃ m, checkSteps cwd steps i = .error m := by
  induction steps generalizing i with
  | nil => cases hmem
  | cons a rest ih =>
    by_cases hhead : (!(jsTruthyOpt a.id) || !(jsTruthyOpt a.command) ||
        !(jsTruthyOpt a.description)) = true
    · exact ⟨_, by unfold checkSteps; rw [if_pos hhead]⟩
    · rcases List.mem_cons.mp hmem with rfl | htail
      · exfalso
        apply hhead
        rcases hbad with hb | hb | hb <;> simp [hb]
      · obtain ⟨m, hm⟩ := ih (i + 1) htail
        refine ⟨m, ?_⟩
        unfold checkSteps
        rw [if_neg hhead, hm]

/-! ## Concrete fixtures used by the closed theorems -/

def lsStep : Step :=
  { id := "s1", description := "list files", command := "ls",
    requiresConfirmation := true, riskLevel := none, workingDirectory := none }

def sudoLsStep : Step :=
  { id := "s2", description := "system listing", command := "sudo ls",
    requiresConfirmation := false, riskLevel := none, workingDirectory := none }

def rmRootStep : Step :=
  { id := "s3", description := "dangerous deletion", command := "rm -rf /",
    requiresConfirmation := false, riskLevel := none, workingDirectory := none }

def runStep : Step :=
  { id := "s4", description := "run a command", command := "ls",
    requiresConfirmation := false, riskLevel := none, workingDirectory := none }

def sandboxEnvFix : ExecEnv :=
  { workDir := "/tmp/genesis-eleven-work", cwd := "/app", homeDir := "/root",
    tmpDir := "/tmp", timeout := 30000, callerEnv := fun _ => none,
    resolve := id, mkdirErr := fun _ => none, accessErr := fun _ => none,
    events := [.closed (some 0)], isWin32 := false }

/-- The four allowed base paths of the containment check, resolved. -/
def allowedRoots (env : ExecEnv) : List String :=
  [env.resolve env.workDir, env.resolve env.cwd, env.resolve env.homeDir,
   env.resolve env.tmpDir]

/-- An Except value carrying an error (a thrown JS exception). -/
def exceptIsError : Except String PlanData → Bool
  | .error _ => true
  | .ok _ => false

/-! ## The claims -/

/-- C1, counterexample: the classifier does not compute the maximum of
the matching tests.  "sudo apt install x" triggers the system test
(candidate high) and the package test (candidate medium); the claimed
maximum is high, yet the classifier answers medium because the package
test overwrites the level.  "sudo ls" triggers a strict subset of
those tests and is classified high, so adding matching rules lowered
the result. -/
theorem C1_counterexample :
    claimMaxRisk (some defaultDenylist) "sudo apt install x" = "high"
    ∧ classifierRisk (some defaultDenylist) "sudo apt install x" = "medium"
    ∧ classifierRisk (some defaultDenylist) "sudo ls" = "high"
    ∧ (categoryTests "sudo ls").map Prod.fst = [false, false, true, false, false, false, false]
    ∧ (categoryTests "sudo apt install x").map Prod.fst =
        [false, false, true, false, true, false, false] := by
  refine ⟨by decide, by decide, by decide, by decide, by decide⟩

/-- C1, amended: the risk level produced by _analyzeRiskLevel combined
with the high-risk pass equals the candidate of the LAST matching
category test in the source order (overwrite semantics), escalated
through _getHigherRiskLevel to high when the high-risk pass matches —
not the maximum over all matching tests, and not monotone in the set
of matching rules. -/
theorem C1_amended (dl : Option Denylist) (command : String) :
    classifierRisk dl command =
      (if (checkHighRiskOperations dl command).isHighRisk then
        getHigherRiskLevel (lastMatchLevel command) "high"
      else lastMatchLevel command) := rfl

/-- C4, counterexample: validateStep drops the step's declared
requiresConfirmation flag (it is not passed to the ValidationResult
constructor), and a high final risk level alone does not set it: a
step declaring requiresConfirmation = true on the command "ls" comes
back with requiresConfirmation = false, and "sudo ls" is classified
high yet comes back with requiresConfirmation = false. -/
theorem C4_counterexample :
    lsStep.requiresConfirmation = true
    ∧ (validateStep (some defaultDenylist) defaultCompile lsStep).requiresConfirmation = false
    ∧ (validateStep (some defaultDenylist) defaultCompile sudoLsStep).riskLevel = "high"
    ∧ (validateStep (some defaultDenylist) defaultCompile sudoLsStep).requiresConfirmation
        = false := by
  refine ⟨rfl, by decide, by decide, by decide⟩

/-- C4, amended: the requiresConfirmation flag of the ValidationResult
returned by validateStep equals exactly the outcome of the high-risk
pass (_checkHighRiskOperations) on the step's command; the declared
flag and the final risk level play no role. -/
theorem C4_amended (dl : Option Denylist) (compile : String → Option (String → Bool))
    (step : Step) :
    (validateStep dl compile step).requiresConfirmation =
      (checkHighRiskOperations dl step.command).isHighRisk := by
  show (if (checkHighRiskOperations dl step.command).isHighRisk then true else false) = _
  cases (checkHighRiskOperations dl step.command).isHighRisk <;> rfl

/-- C6: validatePlan preserves the steps' order in stepResults, its
allowed flag is the conjunction of the per-step allowed flags, and its
riskLevel is the fold of the join of the order none < low < medium <
high over the per-step risk levels, i.e. their maximum. -/
theorem C6_plan_aggregation (dl : Option Denylist)
    (compile : String → Option (String → Bool)) (steps : List Step) :
    (validatePlan dl compile steps).stepResults = steps.map (validateStep dl compile)
    ∧ (validatePlan dl compile steps).allowed =
        (validatePlan dl compile steps).stepResults.all (fun r => r.allowed)
    ∧ (validatePlan dl compile steps).riskLevel =
        ((validatePlan dl compile steps).stepResults.map
          (fun r => r.riskLevel)).foldl specJoin "none" := by
  have hres : (validatePlan dl compile steps).stepResults =
      steps.map (validateStep dl compile) := by
    rw [validatePlan_eq_loop]
    simpa using planLoop_results dl compile steps ([], true, "none")
  refine ⟨hres, ?_, ?_⟩
  · rw [validatePlan_eq_loop]
    have hal := planLoop_allowed dl compile steps ([], true, "none")
    simp only [Bool.true_and] at hal
    simp only [hal, planLoop_results dl compile steps ([], true, "none")]
    rw [List.nil_append, all_map_comp]
  · rw [validatePlan_eq_loop]
    have hrk := planLoop_risk dl compile steps ([], true, "none") (Or.inl rfl)
    simp only [hrk, planLoop_results dl compile steps ([], true, "none")]
    rw [List.nil_append, List.map_map]
    rfl

/-- C8: a pattern the host regex engine rejects is skipped on its own
(with a logged warning) and every remaining rule is still evaluated:
the entire denylist outcome, allowed flag and reasons alike, is the
outcome over the well-formed patterns alone, and the check is a total
function. -/
theorem C8_bad_patterns_isolated (dl : Option Denylist)
    (compile : String → Option (String → Bool)) (command : String) :
    checkDenylist dl compile command =
      checkDenylist (dl.map (fun d =>
        { d with patterns :=
            d.patterns.map (fun ps => ps.filter (fun p => (compile p).isSome)) }))
        compile command := by
  cases dl with
  | none => rfl
  | some d =>
    cases d with
    | mk cmds pats hrs =>
      cases pats with
      | none => rfl
      | some ps => exact foldl_denyPattern_filter compile command ps _

/-- C9: appending a blocked reason (addBlockedReason, or the denylist
merge inside validateStep) forces allowed = false, and across
validateStep's aggregation the risk level never decreases in the order
none < low < medium < high: declared level ≤ level after the analysis
merge ≤ final level. -/
theorem C9_invariants :
    (∀ (r : ValidationResult) (reason : String),
        (addBlockedReason r reason).blockedReasons ≠ r.blockedReasons →
        (addBlockedReason r reason).allowed = false)
    ∧ (∀ (dl : Option Denylist) (compile : String → Option (String → Bool)) (step : Step),
        (validateStep dl compile step).blockedReasons ≠ [] →
        (validateStep dl compile step).allowed = false)
    ∧ (∀ (dl : Option Denylist) (compile : String → Option (String → Bool)) (step : Step),
        specValue (jsOrStr step.riskLevel "low") ≤
          specValue (getHigherRiskLevel (jsOrStr step.riskLevel "low")
            (analyzeRiskLevel step.command).1)
        ∧ specValue (getHigherRiskLevel (jsOrStr step.riskLevel "low")
            (analyzeRiskLevel step.command).1) ≤
          specValue (validateStep dl compile step).riskLevel) := by
  refine ⟨?_, ?_, ?_⟩
  · intro r reason h
    unfold addBlockedReason at h ⊢
    split at h
    · rw [if_pos (by assumption)]
    · exact absurd rfl h
  · intro dl compile step h
    rw [validateStep_blockedReasons_def] at h
    rw [validateStep_allowed_def]
    cases hc : (checkDenylist dl compile step.command).allowed
    · rfl
    · rw [hc] at h
      simp at h
  · intro dl compile step
    refine ⟨specValue_le_getHigher_left _ _, ?_⟩
    rw [validateStep_riskLevel_def]
    split
    · exact specValue_le_getHigher_left _ _
    · exact le_refl _

/-- C9, witness: on a fresh allowed result, appending the reason "bad"
flips allowed to false; validating "rm -rf /" against the default
denylist appends blocked reasons and yields allowed = false; and the
risk aggregation inequalities hold on that same step. -/
theorem C9_witness :
    (addBlockedReason
      { stepId := "s", command := "c", allowed := true, riskLevel := "low",
        warnings := [], blockedReasons := [], requiresConfirmation := false,
        suggestions := [] } "bad").allowed = false
    ∧ (validateStep (some defaultDenylist) defaultCompile rmRootStep).allowed = false
    ∧ specValue (getHigherRiskLevel (jsOrStr rmRootStep.riskLevel "low")
        (analyzeRiskLevel rmRootStep.command).1) ≤
      specValue (validateStep (some defaultDenylist) defaultCompile rmRootStep).riskLevel :=
  ⟨C9_invariants.1 _ "bad" (by decide),
   C9_invariants.2.1 (some defaultDenylist) defaultCompile rmRootStep (by decide),
   (C9_invariants.2.2 (some defaultDenylist) defaultCompile rmRootStep).2⟩

/-- C2, counterexample: the containment check is a raw string-prefix
check, so a sibling directory whose name textually extends an allowed
root passes it.  With the allowed roots resolving to
/tmp/genesis-eleven-work, /app, /root and /tmp, the directory /tmpevil
is a descendant of none of them, yet executeStep spawns the child (the
prefix test against /tmp succeeds) and reports success = true. -/
theorem C2_counterexample :
    (["/tmp/genesis-eleven-work", "/app", "/root", "/tmp"].all
      (fun root => !(isDescendant "/tmpevil" root))) = true
    ∧ allowedRoots sandboxEnvFix = ["/tmp/genesis-eleven-work", "/app", "/root", "/tmp"]
    ∧ sandboxEnvFix.resolve (jsOrStr (some "/tmpevil") sandboxEnvFix.workDir) = "/tmpevil"
    ∧ (executeStep sandboxEnvFix { runStep with workingDirectory := some "/tmpevil" }).2.isSome
        = true
    ∧ (executeStep sandboxEnvFix
        { runStep with workingDirectory := some "/tmpevil" }).1.map (fun r => r.success)
        = some true := by
  refine ⟨by decide, by decide, by decide, by decide, by decide⟩

/-- C2, amended: for every step whose resolved working directory does
not have any of the four allowed base paths as a string prefix,
executeStep returns a failed ExecutionResult (success = false) and the
spawn primitive is never invoked. -/
theorem C2_amended (env : ExecEnv) (step : Step)
    (h : ∀ root ∈ allowedRoots env,
        jsStartsWith (env.resolve (jsOrStr step.workingDirectory env.workDir)) root = false) :
    (executeStep env step).2 = none
    ∧ ∀ r, (executeStep env step).1 = some r → r.success = false := by
  have hv : ∃ m, validateWorkingDirectory env (jsOrStr step.workingDirectory env.workDir)
      = .error m := by
    unfold validateWorkingDirectory
    cases hm : env.mkdirErr (jsOrStr step.workingDirectory env.workDir) with
    | some m => exact ⟨_, rfl⟩
    | none =>
      have hany : ([env.resolve env.workDir, env.resolve env.cwd, env.resolve env.homeDir,
          env.resolve env.tmpDir].any
            (fun a => jsStartsWith (env.resolve (jsOrStr step.workingDirectory env.workDir)) a))
          = false := by
        cases hq : ([env.resolve env.workDir, env.resolve env.cwd, env.resolve env.homeDir,
            env.resolve env.tmpDir].any
              (fun a => jsStartsWith (env.resolve (jsOrStr step.workingDirectory env.workDir)) a))
        · rfl
        · exfalso
          obtain ⟨x, hx, hpx⟩ := List.any_eq_true.mp hq
          rw [h x hx] at hpx
          cases hpx
      simp only [hm, hany]
      exact ⟨_, rfl⟩
  obtain ⟨m, hm2⟩ := hv
  constructor
  · simp only [executeStep, hm2]
  · intro r hr
    simp only [executeStep, hm2] at hr
    cases hr
    rfl

/-- C2, witness: /elsewhere extends none of the allowed roots, so the
step fails and nothing is spawned. -/
theorem C2_witness :
    (executeStep sandboxEnvFix { runStep with workingDirectory := some "/elsewhere" }).2 = none
    ∧ ∀ r, (executeStep sandboxEnvFix
        { runStep with workingDirectory := some "/elsewhere" }).1 = some r →
        r.success = false :=
  C2_amended sandboxEnvFix { runStep with workingDirectory := some "/elsewhere" } (by decide)

/-- C3: in the race set up by _runCommand, the first event decides the
outcome, exactly once.  If the timer fires first, the child is killed
and the promise rejects with the timeout error, whatever events follow;
if the close event comes first, the promise resolves with the exit
code and the timer is cancelled (and stays cancelled); and a run whose
promise rejected with the timeout error is never reported as
success = true by executeStep. -/
theorem C3_timeout_race :
    (∀ (t : Nat) (tr : List SpawnEvent),
        (runTrace t (SpawnEvent.timer :: tr)).settled =
          some (.error ("Command timed out after " ++ toString t ++ "ms"))
        ∧ (runTrace t (SpawnEvent.timer :: tr)).killed = true)
    ∧ (∀ (t : Nat) (c : Option Int) (tr : List SpawnEvent),
        (runTrace t (SpawnEvent.closed c :: tr)).settled =
          some (.ok { exitCode := jsOrInt c 0, stdout := "", stderr := "" })
        ∧ (runTrace t (SpawnEvent.closed c :: tr)).timerArmed = false)
    ∧ (∀ (env : ExecEnv) (step : Step) (r : ExecutionResult),
        (executeStep env step).1 = some r →
        (runTrace env.timeout env.events).settled =
          some (.error ("Command timed out after " ++ toString env.timeout ++ "ms")) →
        r.success = false) := by
  refine ⟨runTrace_timer_first, runTrace_close_first, ?_⟩
  intro env step r h1 h2
  simp only [executeStep] at h1
  rcases hval : validateWorkingDirectory env (jsOrStr step.workingDirectory env.workDir)
    with m | u
  · simp only [hval] at h1
    cases h1
    rfl
  · simp only [hval] at h1
    rcases hpc : parseCommand step.command with _ | pc
    · simp only [hpc] at h1
      cases h1
      rfl
    · simp only [hpc, h2] at h1
      cases h1
      rfl

/-- C3, witness: with a 100ms timeout and the timer firing first, the
run rejects with the timeout error, the child is killed, and the
reported result has success = false; a close-first run resolves. -/
theorem C3_witness :
    ((runTrace 100 [SpawnEvent.timer]).settled =
        some (.error "Command timed out after 100ms")
      ∧ (runTrace 100 [SpawnEvent.timer]).killed = true)
    ∧ (runTrace 100 [SpawnEvent.closed (some 0)]).settled =
        some (.ok { exitCode := 0, stdout := "", stderr := "" })
    ∧ (failureResult runStep "/tmp/genesis-eleven-work" "Command timed out after 100ms").success
        = false :=
  ⟨C3_timeout_race.1 100 [],
   (C3_timeout_race.2.1 100 (some 0) []).1,
   C3_timeout_race.2.2 { sandboxEnvFix with events := [SpawnEvent.timer], timeout := 100 }
     runStep _ (by decide) (by decide)⟩

/-- C7: the child environment is the explicitly constructed record of
_getSandboxEnvironment — spawn receives exactly it — and it reads only
PATH, SHELL and LANG from the caller: two caller environments agreeing
on those three variables produce identical child environments, so no
other variable is forwarded. -/
theorem C7_minimal_environment :
    (∀ (e1 e2 : String → Option String) (workDir : String) (w : Bool),
        e1 "PATH" = e2 "PATH" → e1 "SHELL" = e2 "SHELL" → e1 "LANG" = e2 "LANG" →
        getSandboxEnvironment e1 workDir w = getSandboxEnvironment e2 workDir w)
    ∧ (∀ (env : ExecEnv) (step : Step) (senv : SandboxEnv),
        (executeStep env step).2 = some senv →
        senv = getSandboxEnvironment env.callerEnv env.workDir env.isWin32) := by
  constructor
  · intro e1 e2 workDir w h1 h2 h3
    unfold getSandboxEnvironment
    rw [h1, h2, h3]
  · intro env step senv h
    simp only [executeStep] at h
    rcases hval : validateWorkingDirectory env (jsOrStr step.workingDirectory env.workDir)
      with m | u
    · simp only [hval] at h
      cases h
    · simp only [hval] at h
      rcases hpc : parseCommand step.command with _ | pc
      · simp only [hpc] at h
        cases h
      · simp only [hpc] at h
        rcases hst : (runTrace env.timeout env.events).settled with _ | res
        · simp only [hst] at h
          cases h
          rfl
        · rcases res with r0 | m0 <;> simp only [hst] at h <;> (cases h; rfl)

/-- C7, witness: two caller environments that differ only in the
variable SECRET_TOKEN produce the same sandbox environment. -/
theorem C7_witness :
    getSandboxEnvironment (fun k => if k = "SECRET_TOKEN" then some "aaa" else none)
      "/tmp/genesis-eleven-work" false =
    getSandboxEnvironment (fun k => if k = "SECRET_TOKEN" then some "bbb" else none)
      "/tmp/genesis-eleven-work" false :=
  C7_minimal_environment.1 _ _ "/tmp/genesis-eleven-work" false (by decide) (by decide)
    (by decide)

/-- C10: when the child closes first with a null exit code (killed by a
signal) so the promise has not already been rejected, the close handler
coerces the code to 0 (exitCode || 0) and executeStep therefore reports
exitCode = 0 and success = true. -/
theorem C10_null_exit_reports_success (env : ExecEnv) (step : Step)
    (rest : List SpawnEvent)
    (hev : env.events = SpawnEvent.closed none :: rest)
    (hsp : (executeStep env step).2.isSome = true) :
    ∃ r, (executeStep env step).1 = some r ∧ r.exitCode = 0 ∧ r.success = true := by
  have hset := (runTrace_close_first env.timeout none rest).1
  rw [← hev] at hset
  rcases hval : validateWorkingDirectory env (jsOrStr step.workingDirectory env.workDir)
    with m | u
  · exfalso
    simp only [executeStep, hval] at hsp
    simp at hsp
  · rcases hpc : parseCommand step.command with _ | pc
    · exfalso
      simp only [executeStep, hval, hpc] at hsp
      simp at hsp
    · simp only [executeStep, hval, hpc, hset]
      exact ⟨_, rfl, rfl, rfl⟩

/-- C10, witness: a trace consisting of a single close event with a
null exit code yields exitCode = 0 and success = true. -/
theorem C10_witness :
    ∃ r, (executeStep { sandboxEnvFix with events := [SpawnEvent.closed none] } runStep).1
        = some r ∧ r.exitCode = 0 ∧ r.success = true :=
  C10_null_exit_reports_success { sandboxEnvFix with events := [SpawnEvent.closed none] }
    runStep [] rfl (by decide)

/-- C5, counterexample: a plan with zero steps is not rejected by a
not-allowed verdict — the Planner throws (an error value) and the
Validator does not reject at all: validatePlan on an empty plan
returns allowed = true. -/
theorem C5_counterexample :
    parseAndValidatePlan "/app"
      { intent := some "list files", steps := some [], riskLevel := none,
        rollback := none, estimatedDuration := none, prerequisites := none }
      = .error "Failed to parse plan response: Invalid plan: must contain at least one step"
    ∧ (validatePlan (some defaultDenylist) defaultCompile []).allowed = true :=
  ⟨rfl, rfl⟩

/-- C5, amended: a plan with zero steps, or containing a step missing
id, command or description, is rejected at plan-parse time by a thrown
error (Planner._parseAndValidatePlan, modelled as an error value), not
by a not-allowed verdict; the Validator itself does not reject the
empty plan: validatePlan returns allowed = true on it. -/
theorem C5_amended (cwd : String) (p : RawPlan) :
    (p.steps = some [] → exceptIsError (parseAndValidatePlan cwd p) = true)
    ∧ (∀ (steps : List RawStep) (s : RawStep), p.steps = some steps → s ∈ steps →
        (jsTruthyOpt s.id = false ∨ jsTruthyOpt s.command = false ∨
          jsTruthyOpt s.description = false) →
        exceptIsError (parseAndValidatePlan cwd p) = true)
    ∧ (∀ (dl : Option Denylist) (compile : String → Option (String → Bool)),
        (validatePlan dl compile ([] : List Step)).allowed = true) := by
  refine ⟨?_, ?_, ?_⟩
  · intro h
    cases hi : jsTruthyOpt p.intent
    · simp [parseAndValidatePlan, hi, exceptIsError]
    · simp [parseAndValidatePlan, hi, h, exceptIsError]
  · intro steps s hsteps hmem hbad
    cases hi : jsTruthyOpt p.intent
    · simp [parseAndValidatePlan, hi, exceptIsError]
    · obtain ⟨m, hm⟩ := checkSteps_error_of_invalid cwd steps 1 s hmem hbad
      by_cases hlen : steps.length = 0
      · simp [parseAndValidatePlan, hi, hsteps, hlen, exceptIsError]
      · simp [parseAndValidatePlan, hi, hsteps, hlen, hm, exceptIsError]
  · intro dl compile
    rfl

/-- A raw step lacking its command field. -/
def noCommandRawStep : RawStep :=
  { id := some "s1", description := some "d", command := none,
    requiresConfirmation := none, riskLevel := none, workingDirectory := none }

/-- A raw plan with zero steps. -/
def emptyRawPlan : RawPlan :=
  { intent := some "noop", steps := some [], riskLevel := none,
    rollback := none, estimatedDuration := none, prerequisites := none }

/-- A raw plan whose only step lacks its command. -/
def noCommandRawPlan : RawPlan :=
  { intent := some "noop", steps := some [noCommandRawStep], riskLevel := none,
    rollback := none, estimatedDuration := none, prerequisites := none }

/-- C5, witness: the empty plan and a plan whose only step lacks a
command are both rejected with a thrown error. -/
theorem C5_witness :
    exceptIsError (parseAndValidatePlan "/app" emptyRawPlan) = true
    ∧ exceptIsError (parseAndValidatePlan "/app" noCommandRawPlan) = true :=
  ⟨(C5_amended "/app" emptyRawPlan).1 rfl,
   (C5_amended "/app" noCommandRawPlan).2.1 [noCommandRawStep] noCommandRawStep
     rfl (by decide) (by decide)⟩

end GenesisEleven
